import Mathlib

/-!
Verification of the smart-tiling rule engine against its specification.

This file shallowly embeds the Python sources of the repository:
  * smart_tiling/core/context.py  (descriptor extraction and matching)
  * smart_tiling/core/rules.py    (rule engine: parent/child matching, pending rules)
  * smart_tiling/core/state.py    (time-bounded state store with lazy expiry)
  * smart_tiling/scroll/layout.py (set_mode / place_window / set_size commands)
  * smart_tiling/main.py          (child-phase action execution)

Modelling conventions:
  * Python `time.time()` floats and float ratios are modelled as exact
    rationals (no claim here depends on binary floating point rounding).
  * Python dicts are modelled as association lists; insertion replaces any
    entry with the same key (iteration order is never relied upon).
  * The i3ipc connection is modelled as an environment `Env` giving, for each
    command string, either a result list (`Except.ok`) or a raised exception
    (`Except.error`).  Every call to `connection.command` is recorded in a
    trace of command strings, which is returned alongside the result.
  * Python truthiness is modelled explicitly where the source relies on it
    (empty strings, empty lists and `None` are falsy, `0` is a falsy int).
-/

/-! ## Glob matching (Python `fnmatch`)

`context.py` delegates title matching to `fnmatch.fnmatch` after lowering
both title and pattern.  We embed the glob dialect of `fnmatch.translate`:
`*` matches any sequence, `?` any single character, `[seq]` a character set
with ranges, `[!seq]` its complement; a `[` with no closing `]` is literal.
The pattern is first compiled to tokens (as `translate` compiles to a regex)
and then matched against the whole string. -/

inductive ClassItem where
  | single (c : Char)
  | range (lo hi : Char)
  deriving DecidableEq, Repr

/-- Scan up to the closing `]`: returns the body and the remainder. -/
def findClose : List Char → Option (List Char × List Char)
  | [] => none
  | c :: rest =>
    if c = ']' then some ([], rest)
    else (findClose rest).map (fun br => (c :: br.1, br.2))

theorem findClose_rest_length :
    ∀ (l b r : List Char), findClose l = some (b, r) → r.length < l.length := by
  intro l
  induction l with
  | nil => intro b r h; simp [findClose] at h
  | cons c rest ih =>
    intro b r h
    simp only [findClose] at h
    by_cases hc : c = ']'
    · rw [if_pos hc] at h
      injection h with h1
      injection h1 with hb hr
      subst hr
      simp [List.length_cons]
    · rw [if_neg hc] at h
      cases hfr : findClose rest with
      | none => rw [hfr] at h; simp at h
      | some br =>
        rw [hfr] at h
        simp only [Option.map_some'] at h
        injection h with h1
        injection h1 with hb hr
        subst hr
        have := ih br.1 br.2 (by rw [hfr])
        simp [List.length_cons]
        omega

/-- A `]` immediately after the (optional) `!` is a literal member of the set. -/
def splitCls (l : List Char) : Option (List Char × List Char) :=
  match l with
  | ']' :: rest => (findClose rest).map (fun br => (']' :: br.1, br.2))
  | l2 => findClose l2

theorem splitCls_rest_length :
    ∀ (l b r : List Char), splitCls l = some (b, r) → r.length < l.length := by
  intro l b r h
  unfold splitCls at h
  split at h
  · rename_i rest
    cases hfr : findClose rest with
    | none => rw [hfr] at h; simp at h
    | some br =>
      rw [hfr] at h
      simp only [Option.map_some'] at h
      injection h with h1
      injection h1 with hb hr
      subst hr
      have := findClose_rest_length rest br.1 br.2 (by rw [hfr])
      simp [List.length_cons]
      omega
  · exact findClose_rest_length _ _ _ h

/-- Interpret the body of a character class: `a-b` is a range, anything else
is a single character; a trailing `-` is literal. -/
def parseItems : List Char → List ClassItem
  | [] => []
  | a :: '-' :: b :: rest => ClassItem.range a b :: parseItems rest
  | a :: rest => ClassItem.single a :: parseItems rest

/-- Parse the part of the pattern following `[`: optional negation `!`,
then the class body up to the closing `]`. -/
def classSpec (l : List Char) : Option (Bool × List ClassItem × List Char) :=
  match l with
  | '!' :: rest => (splitCls rest).map (fun br => (true, parseItems br.1, br.2))
  | l2 => (splitCls l2).map (fun br => (false, parseItems br.1, br.2))

theorem classSpec_rest_length :
    ∀ (l : List Char) (n : Bool) (it : List ClassItem) (r : List Char),
      classSpec l = some (n, it, r) → r.length < l.length := by
  intro l n it r h
  unfold classSpec at h
  split at h
  · rename_i rest
    cases hs : splitCls rest with
    | none => rw [hs] at h; simp at h
    | some br =>
      rw [hs] at h
      simp only [Option.map_some'] at h
      injection h with h1
      injection h1 with hn h2
      injection h2 with hit hr
      subst hr
      have := splitCls_rest_length rest br.1 br.2 (by rw [hs])
      simp [List.length_cons]
      omega
  · rename_i l2 hne
    cases hs : splitCls l with
    | none => rw [hs] at h; simp at h
    | some br =>
      rw [hs] at h
      simp only [Option.map_some'] at h
      injection h with h1
      injection h1 with hn h2
      injection h2 with hit hr
      subst hr
      exact splitCls_rest_length l br.1 br.2 (by rw [hs])

inductive GlobTok where
  | star
  | anyChar
  | lit (c : Char)
  | cls (neg : Bool) (items : List ClassItem)
  deriving DecidableEq, Repr

/-- Compile a glob pattern to tokens, mirroring `fnmatch.translate`. -/
def compileGlob (l : List Char) : List GlobTok :=
  match l with
  | [] => []
  | c :: ps =>
    if c = '*' then GlobTok.star :: compileGlob ps
    else if c = '?' then GlobTok.anyChar :: compileGlob ps
    else if c = '[' then
      match h : classSpec ps with
      | some (neg, items, rest) =>
        GlobTok.cls neg items :: compileGlob rest
      | none => GlobTok.lit '[' :: compileGlob ps
    else GlobTok.lit c :: compileGlob ps
termination_by l.length
decreasing_by
  all_goals simp [List.length_cons]
  all_goals (have h2 := classSpec_rest_length _ _ _ _ h; omega)

def clsItemMatch (c : Char) : ClassItem → Bool
  | ClassItem.single a => a == c
  | ClassItem.range lo hi => decide (lo ≤ c) && decide (c ≤ hi)

def clsMatch (neg : Bool) (items : List ClassItem) (c : Char) : Bool :=
  if neg then !(items.any (clsItemMatch c)) else items.any (clsItemMatch c)

/-- Match compiled glob tokens against the whole string. -/
def tokMatch : List GlobTok → List Char → Bool
  | [], s => s.isEmpty
  | GlobTok.star :: ts, [] => tokMatch ts []
  | GlobTok.star :: ts, c :: ss =>
    tokMatch ts (c :: ss) || tokMatch (GlobTok.star :: ts) ss
  | GlobTok.anyChar :: _, [] => false
  | GlobTok.anyChar :: ts, _ :: ss => tokMatch ts ss
  | GlobTok.lit _ :: _, [] => false
  | GlobTok.lit c :: ts, d :: ss => c == d && tokMatch ts ss
  | GlobTok.cls _ _ :: _, [] => false
  | GlobTok.cls neg items :: ts, d :: ss => clsMatch neg items d && tokMatch ts ss
termination_by ts s => (ts.length, s.length)

/-- `fnmatch.fnmatch` on already case-folded data (full-string match). -/
def globMatches (pattern text : List Char) : Bool :=
  tokMatch (compileGlob pattern) text

/-- Python `str.lower()` (ASCII case folding suffices for the claims). -/
def strLower (s : String) : String := String.mk (s.data.map Char.toLower)

/-! ## Containers and descriptors (`core/context.py`)

An i3ipc container as far as the engine reads it: `app_id`, `window_class`
(a string, an `[instance, class]` list, or absent), `name` (the title),
`pid` and `id`.  An absent attribute is `none` (Python `getattr` default). -/

inductive WinClassVal where
  | missing
  | str (s : String)
  | strList (l : List String)
  deriving DecidableEq, Repr

structure Container where
  app_id : Option String
  window_class : WinClassVal
  name : Option String
  pid : Option Int
  id : Option Int
  deriving DecidableEq, Repr

/-- Result of `detect_app_context` (the normalized window descriptor). -/
structure AppContext where
  app_id : Option String
  window_class : Option String
  window_instance : Option String
  title : Option String
  pid : Option Int
  deriving DecidableEq, Repr

/-- `extract_app_id`: the Wayland `app_id` attribute. -/
def extract_app_id (c : Container) : Option String := c.app_id

/-- `extract_window_class`: class part of the X11 window class; a list yields
its head, a non-empty string yields itself, anything falsy yields `None`. -/
def extract_window_class (c : Container) : Option String :=
  match c.window_class with
  | WinClassVal.missing => none
  | WinClassVal.strList l =>
    match l with
    | [] => none
    | s :: _ => some s
  | WinClassVal.str s => if s = "" then none else some s

/-- `detect_app_context`. -/
def detect_app_context (c : Container) : AppContext :=
  { app_id := extract_app_id c
    window_class := extract_window_class c
    window_instance :=
      match c.window_class with
      | WinClassVal.strList l => if l.length > 1 then l.get? 1 else none
      | _ => none
    title := c.name
    pid := c.pid }

/-- Python `x in list` for an optional string against a list of strings
(`None` is never a member of a list of strings). -/
def optMemStr (o : Option String) (l : List String) : Bool :=
  match o with
  | some s => l.contains s
  | none => false

/-- `match_title_pattern`: false on falsy title (`None` or empty) or empty
pattern list, else any non-empty pattern glob-matches the lowered title. -/
def match_title_pattern (title : Option String) (patterns : List String) : Bool :=
  match title with
  | none => false
  | some t =>
    if t = "" ∨ patterns = [] then false
    else patterns.any (fun p =>
      if p = "" then false
      else globMatches (strLower p).data (strLower t).data)

/-- `matches_app_context`: sequential checks, each guarded by a non-empty
criteria list, first hit returns true. -/
def matches_app_context (c : Container)
    (app_id_list window_class_list title_patterns : List String) : Bool :=
  let ctx := detect_app_context c
  (decide (app_id_list ≠ []) && optMemStr ctx.app_id app_id_list) ||
  (decide (window_class_list ≠ []) && optMemStr ctx.window_class window_class_list) ||
  (decide (title_patterns ≠ []) && match_title_pattern ctx.title title_patterns)

/-! ## Rules and actions (`core/rules.py`)

`_parse_dict_action` normalizes every action into one of these shapes; the
`generic` case covers unrecognized keys (its key is distinct from the five
recognized ones, which are mapped to their own constructors). -/

inductive ActionD where
  | set_mode (mode : String) (modifier : Option String)
  | place (direction : String)
  | size_ratio (value : ℚ)
  | inherit_cwd (enabled : Bool)
  | preserve_column (enabled : Bool)
  | generic (key : String) (value : String)
  deriving DecidableEq, Repr

/-- The `action` field of the parsed dict. -/
def actionType : ActionD → String
  | ActionD.set_mode _ _ => "set_mode"
  | ActionD.place _ => "place"
  | ActionD.size_ratio _ => "size_ratio"
  | ActionD.inherit_cwd _ => "inherit_cwd"
  | ActionD.preserve_column _ => "preserve_column"
  | ActionD.generic k _ => k

/-- `action.get('direction', 'below')`. -/
def directionOf : ActionD → String
  | ActionD.place d => d
  | _ => "below"

/-- `action.get('value', 0.333)`. -/
def valueOf : ActionD → ℚ
  | ActionD.size_ratio v => v
  | _ => mkRat 333 1000

/-- `action.get('enabled', False)`. -/
def enabledOf : ActionD → Bool
  | ActionD.inherit_cwd e => e
  | ActionD.preserve_column e => e
  | _ => false

/-- `action.get('mode', 'v')`. -/
def modeOf : ActionD → String
  | ActionD.set_mode m _ => m
  | _ => "v"

/-- `action.get('modifier', None)`. -/
def modifierOf : ActionD → Option String
  | ActionD.set_mode _ mo => mo
  | _ => none

structure ParentMatcher where
  app_id : List String
  window_class : List String
  title_pattern : List String
  deriving DecidableEq, Repr

structure ChildMatcher where
  app_id : List String
  deriving DecidableEq, Repr

structure Rule where
  name : String
  parent : ParentMatcher
  child : ChildMatcher
  actions : List ActionD
  deriving DecidableEq, Repr

/-- `RuleEngine._matches_parent_criteria`. -/
def matchesParentCriteria (c : Container) (pm : ParentMatcher) : Bool :=
  matches_app_context c pm.app_id pm.window_class pm.title_pattern

/-- `RuleEngine.match_parent`: first rule in load order whose parent
criteria accept the container. -/
def match_parent (rules : List Rule) (c : Container) : Option Rule :=
  match rules with
  | [] => none
  | r :: rest =>
    if matchesParentCriteria c r.parent then some r else match_parent rest c

/-- `RuleEngine.match_child`: an empty child `app_id` list accepts any
container; otherwise the container must match the app-id criteria. -/
def match_child (c : Container) (r : Rule) : Bool :=
  if r.child.app_id = [] then true
  else matches_app_context c r.child.app_id [] []

/-! ## Time-bounded state store (`core/state.py`)

Python dicts keyed by workspace (or child id) are modelled as association
lists; `dictInsert` models `d[k] = v` (replace the entry for `k`),
`dictErase` models `del d[k]`.  Iteration order is never relied upon by the
claims.  `time.time()` is passed in explicitly as `now : ℚ`. -/

def dictLookup {K V : Type} [BEq K] (l : List (K × V)) (k : K) : Option V :=
  match l with
  | [] => none
  | p :: rest => if p.1 == k then some p.2 else dictLookup rest k

def dictErase {K V : Type} [BEq K] (l : List (K × V)) (k : K) : List (K × V) :=
  l.filter (fun p => !(p.1 == k))

def dictInsert {K V : Type} [BEq K] (l : List (K × V)) (k : K) (v : V) :
    List (K × V) :=
  dictErase l k ++ [(k, v)]

/-- Number of entries stored under key `k`. -/
def countKey {K V : Type} [BEq K] (l : List (K × V)) (k : K) : Nat :=
  (l.filter (fun p => p.1 == k)).length

theorem dictLookup_erase_self {K V : Type} [BEq K] [LawfulBEq K]
    (l : List (K × V)) (k : K) : dictLookup (dictErase l k) k = none := by
  induction l with
  | nil => rfl
  | cons p rest ih =>
    by_cases hp : p.1 == k
    · simp [dictErase, hp] at ih ⊢
      exact ih
    · simp only [dictErase, List.filter_cons] at ih ⊢
      simp [hp] at ih ⊢
      simp [dictLookup, hp]
      exact ih

theorem dictLookup_insert_self {K V : Type} [BEq K] [LawfulBEq K]
    (l : List (K × V)) (k : K) (v : V) :
    dictLookup (dictInsert l k v) k = some v := by
  induction l with
  | nil => simp [dictInsert, dictErase, dictLookup]
  | cons p rest ih =>
    by_cases hp : p.1 == k
    · simpa [dictInsert, dictErase, List.filter_cons, hp] using ih
    · simp only [dictInsert, dictErase, List.filter_cons] at ih ⊢
      simp_all [dictLookup, hp]

theorem countKey_insert_self {K V : Type} [BEq K] [LawfulBEq K]
    (l : List (K × V)) (k : K) (v : V) :
    countKey (dictInsert l k v) k = 1 := by
  induction l with
  | nil => simp [dictInsert, dictErase, countKey]
  | cons p rest ih =>
    by_cases hp : p.1 == k
    · simpa [dictInsert, dictErase, countKey, List.filter_cons, hp] using ih
    · simp only [dictInsert, dictErase, countKey, List.filter_cons,
        List.filter_append] at ih ⊢
      simp_all [hp]

/-- Entry of `_pending_rules` (built by `StateManager.store_pending_rule`). -/
structure PendingEntry where
  rule : Rule
  parent_id : Option Int
  context : AppContext
  expires_at : ℚ
  deriving DecidableEq, Repr

/-- Entry of `_relationships` (built by `StateManager.store_relationship`). -/
structure Relationship where
  parent_id : Int
  rule_name : String
  created_at : ℚ
  parent_context : AppContext
  deriving DecidableEq, Repr

/-- Entry of `_parent_cwds` (built by `StateManager.store_parent_cwd`). -/
structure CwdEntry where
  parent_id : Option Int
  cwd : String
  expires_at : ℚ
  deriving DecidableEq, Repr

/-- The four keyed sub-stores of `StateManager` (preserved dimensions carry
an opaque payload; none of the claims read it). -/
structure StateManager where
  relationships : List (Int × Relationship)
  pending_rules : List (String × PendingEntry)
  parent_cwds : List (String × CwdEntry)
  deriving DecidableEq, Repr

/-- `StateManager.store_pending_rule`: overwrites the workspace entry with
absolute expiry `now + expires_in`. -/
def store_pending_rule (st : StateManager) (workspace : String) (rule : Rule)
    (parent_id : Option Int) (context : AppContext) (now expires_in : ℚ) :
    StateManager :=
  let e : PendingEntry := PendingEntry.mk rule parent_id context (now + expires_in)
  { st with pending_rules := dictInsert st.pending_rules workspace e }

/-- `StateManager.get_pending_rule`: returns the entry while
`expires_at > now`; an expired entry is deleted and `None` returned (lazy
expiry).  Returns the read result together with the updated store. -/
def get_pending_rule (st : StateManager) (workspace : String) (now : ℚ) :
    Option PendingEntry × StateManager :=
  match dictLookup st.pending_rules workspace with
  | some e =>
    if now < e.expires_at then (some e, st)
    else (none, { st with pending_rules := dictErase st.pending_rules workspace })
  | none => (none, st)

/-- `StateManager.store_relationship` (`created_at = time.time()`). -/
def store_relationship (st : StateManager) (child_id parent_id : Int)
    (rule_name : String) (context : AppContext) (now : ℚ) : StateManager :=
  let rel : Relationship := Relationship.mk parent_id rule_name now context
  { st with relationships := dictInsert st.relationships child_id rel }

/-- `RuleEngine.check_child_against_pending_rules`: read the pending match
(lazy expiry), on child match record a relationship (when both ids are
truthy) and return the rule; on failure return none.  The pending entry is
never written here. -/
def check_child_against_pending_rules (st : StateManager) (child : Container)
    (workspace : String) (now : ℚ) : Option Rule × StateManager :=
  let res := get_pending_rule st workspace now
  match res.1 with
  | none => (none, res.2)
  | some info =>
    if match_child child info.rule then
      let st2 :=
        match child.id, info.parent_id with
        | some cid, some pid =>
          if cid ≠ 0 ∧ pid ≠ 0 then
            store_relationship res.2 cid pid info.rule.name info.context now
          else res.2
        | _, _ => res.2
      (some info.rule, st2)
    else (none, res.2)

/-! ## Scroll layout commands (`scroll/layout.py`) and child phase (`main.py`)

The i3ipc connection: `command` either returns a list of per-command results
(their `.success` flags) or raises.  `workspace` is what
`_get_current_workspace` yields (it uses `get_tree`, not `command`).  Every
layout function returns its success flag together with the list of command
strings it sent to `connection.command`, in order. -/

structure Env where
  command : String → Except String (List Bool)
  workspace : Option String

/-- `all(r.success for r in result) if result else False`; a raised
exception is caught by the caller and counts as failure. -/
def cmdSuccess (env : Env) (cmd : String) : Bool :=
  match env.command cmd with
  | Except.ok rs => !rs.isEmpty && rs.all (fun b => b)
  | Except.error _ => false

/-- Python truthiness of an optional string (`None` and `""` are falsy). -/
def optStrTruthy : Option String → Bool
  | none => false
  | some s => decide (s ≠ "")

/-- `ScrollLayoutManager.set_mode`: validates the mode, then a *truthy*
modifier against the allowed set, then sends one `set_mode` command.  (The
`_original_modes` bookkeeping between validation and send has no observable
effect on any claim and is omitted; it calls `get_tree`, not `command`.) -/
def set_mode (env : Env) (mode : String) (modifier : Option String) :
    Bool × List String :=
  if ¬(mode = "h" ∨ mode = "v") then (false, [])
  else if optStrTruthy modifier = true ∧
      ¬(modifier.getD "" = "after" ∨ modifier.getD "" = "before" ∨
        modifier.getD "" = "end" ∨ modifier.getD "" = "beg") then (false, [])
  else
    let cmd := "set_mode " ++ mode ++
      (if optStrTruthy modifier = true then " " ++ modifier.getD "" else "")
    (cmdSuccess env cmd, [cmd])

/-- The `direction_map` dict of `place_window`. -/
def directionLookup (d : String) : Option (String × String) :=
  if d = "below" then some ("v", "after")
  else if d = "right" then some ("h", "after")
  else if d = "above" then some ("v", "before")
  else if d = "left" then some ("h", "before")
  else none

/-- `ScrollLayoutManager.place_window`: map the direction and delegate to
`set_mode`. -/
def place_window (env : Env) (direction : String) : Bool × List String :=
  match directionLookup direction with
  | none => (false, [])
  | some mm => set_mode env mm.1 (some mm.2)

/-- Fractional decimal digits of `n / d` (with fuel; all ratios in the
claims terminate well within it). -/
def fracDigits (n d : ℕ) : ℕ → List ℕ
  | 0 => []
  | fuel + 1 =>
    if n = 0 then []
    else (n * 10 / d) :: fracDigits (n * 10 % d) d fuel

def digitsToString (l : List ℕ) : String :=
  l.foldl (fun s d => s ++ toString d) ""

/-- Python `f"{ratio}"` for the exact rationals modelling the floats used
here (shortest decimal form, e.g. `0.333`, `0.5`, `2.0`). -/
def formatRatio (q : ℚ) : String :=
  let n := q.num.natAbs
  let d := q.den
  let sign := if q.num < 0 then "-" else ""
  if n % d = 0 then sign ++ toString (n / d) ++ ".0"
  else sign ++ toString (n / d) ++ "." ++ digitsToString (fracDigits (n % d) d 20)

/-- `ScrollLayoutManager.set_size`: validates the dimension and the ratio
bounds, then sends one `set_size` command. -/
def set_size (env : Env) (dimension : String) (ratio : ℚ) :
    Bool × List String :=
  if ¬(dimension = "h" ∨ dimension = "v") then (false, [])
  else if ¬(mkRat 1 10 ≤ ratio ∧ ratio ≤ mkRat 9 10) then (false, [])
  else
    let cmd := "set_size " ++ dimension ++ " " ++ formatRatio ratio
    (cmdSuccess env cmd, [cmd])

/-- `main._get_placement_direction_from_rule` (identical to
`RuleEngine._get_placement_direction_from_actions`): direction of the first
action whose type is `place`, defaulting to `below`. -/
def getPlacementDirectionFromRule : List ActionD → String
  | [] => "below"
  | a :: rest =>
    if actionType a = "place" then directionOf a
    else getPlacementDirectionFromRule rest

/-- `main._map_direction_to_dimension` (the `direction_map.get(d, 'v')`). -/
def mapDirectionToDimension (d : String) : String :=
  if d = "below" then "v"
  else if d = "above" then "v"
  else if d = "left" then "h"
  else if d = "right" then "h"
  else "v"

/-- Body of the per-action `try` in `main._execute_child_actions`, for one
non-`set_mode` action: returns the success flag and the commands sent.
`inherit_cwd`/`preserve_column` touch only the state store; when enabled
they succeed iff the current workspace is truthy. -/
def runChildAction (env : Env) (ruleActions : List ActionD) (a : ActionD) :
    Bool × List String :=
  let t := actionType a
  if t = "place" then place_window env (directionOf a)
  else if t = "size_ratio" then
    set_size env (mapDirectionToDimension (getPlacementDirectionFromRule ruleActions))
      (valueOf a)
  else if t = "inherit_cwd" then
    (if enabledOf a then optStrTruthy env.workspace else true, [])
  else if t = "preserve_column" then
    (if enabledOf a then optStrTruthy env.workspace else true, [])
  else (false, [])

structure ChildAcc where
  executed : List String
  failed : List String
  trace : List String
  deriving DecidableEq, Repr

/-- One iteration of the action loop: `set_mode` actions are skipped (the
parent phase ran them); otherwise the action type is appended to the
executed or failed list according to its success flag. -/
def execChildStep (env : Env) (ruleActions : List ActionD) (acc : ChildAcc)
    (a : ActionD) : ChildAcc :=
  if actionType a = "set_mode" then acc
  else
    let r := runChildAction env ruleActions a
    { executed := acc.executed ++ (if r.1 then [actionType a] else [])
      failed := acc.failed ++ (if r.1 then [] else [actionType a])
      trace := acc.trace ++ r.2 }

/-- The result dict of `_execute_child_actions`. -/
structure ExecReport where
  handled : Bool
  rule_name : String
  actions_executed : List String
  actions_failed : List String
  deriving DecidableEq, Repr

/-- `main._execute_child_actions`: run all non-`set_mode` actions in order,
tracking executed and failed actions; `handled` iff at least one action
succeeded.  Also returns the trace of commands sent. -/
def execChildActions (env : Env) (r : Rule) : ExecReport × List String :=
  let acc := r.actions.foldl (execChildStep env r.actions) (ChildAcc.mk [] [] [])
  (ExecReport.mk (decide (0 < acc.executed.length)) r.name acc.executed acc.failed,
    acc.trace)

/-! ## Spec-side definitions (for refinement comparisons)

These follow the specification's words, not the source, and exist to be
compared against the code-derived definitions above. -/

/-- From the spec: the direction of the rule's *most recent* Place action
(the last one in the ordered action list). -/
def specMostRecentPlaceDirection (acts : List ActionD) : Option String :=
  (acts.filterMap (fun a =>
    match a with
    | ActionD.place d => some d
    | _ => none)).getLast?

/-- From the spec: vertical for below/above, horizontal for right/left,
vertical otherwise. -/
def specAxisOfDirection (d : String) : String :=
  if d = "below" ∨ d = "above" then "v"
  else if d = "left" ∨ d = "right" then "h"
  else "v"

/-- Axis implied by the rule's *first* Place action, default vertical. -/
def specFirstPlaceAxis (acts : List ActionD) : String :=
  match acts.find? (fun a => actionType a == "place") with
  | some a => specAxisOfDirection (directionOf a)
  | none => "v"

/-! ## Concrete fixtures used by witnesses and counterexamples -/

def envT : Env := Env.mk (fun _ => Except.ok [true]) (some "1")

def ruleW : Rule := Rule.mk "w" (ParentMatcher.mk [] [] []) (ChildMatcher.mk []) []

def ctxW : AppContext := AppContext.mk none none none none none

def entryW : PendingEntry := PendingEntry.mk ruleW (some 7) ctxW (mkRat 5 1)

def stW : StateManager := StateManager.mk [] [("1", entryW)] []

def ruleA : Rule := Rule.mk "a" (ParentMatcher.mk ["alpha"] [] []) (ChildMatcher.mk []) []

def ruleB : Rule := Rule.mk "b" (ParentMatcher.mk ["kitty"] [] []) (ChildMatcher.mk []) []

def contK : Container := Container.mk (some "kitty") WinClassVal.missing none none none

def childW : Container := Container.mk (some "kitty") WinClassVal.missing (some "t") none (some 9)

/-! ## Claim C1: first-match parent lookup -/

theorem match_parent_eq_find (rules : List Rule) (c : Container) :
    match_parent rules c = rules.find? (fun r => matchesParentCriteria c r.parent) := by
  induction rules with
  | nil => rfl
  | cons r0 rest ih =>
    simp only [match_parent, List.find?]
    by_cases hm : matchesParentCriteria c r0.parent = true <;> simp [hm, ih]

/-- C1: `match_parent` returns the first rule in load order whose parent
criteria accept the container, and `none` when no rule's criteria do. -/
theorem claim_match_parent_first_match (rules : List Rule) (c : Container) :
    (match_parent rules c = none ↔
      ∀ r ∈ rules, matchesParentCriteria c r.parent = false) ∧
    (∀ r : Rule, match_parent rules c = some r ↔
      (matchesParentCriteria c r.parent = true ∧
       ∃ pre post, rules = pre ++ r :: post ∧
         ∀ p ∈ pre, matchesParentCriteria c p.parent = false)) := by
  constructor
  · rw [match_parent_eq_find]
    simp only [List.find?_eq_none, Bool.not_eq_true]
  · intro r
    rw [match_parent_eq_find]
    simp only [List.find?_eq_some, Bool.not_eq_true']

/-- C1 witness: with a non-matching rule first, the second rule is found. -/
theorem claim_match_parent_first_match_witness :
    match_parent [ruleA, ruleB] contK = some ruleB :=
  ((claim_match_parent_first_match [ruleA, ruleB] contK).2 ruleB).mpr
    ⟨by decide, [ruleA], [], rfl, by decide⟩

/-! ## Claim C2: lazy expiry on read -/

/-- C2: reading a stored pending match strictly before `expires_at` returns
the entry and leaves the store unchanged; reading at or after `expires_at`
returns none and removes the entry, with no sweep involved. -/
theorem claim_pending_lazy_expiry (st : StateManager) (w : String)
    (e : PendingEntry) (now : ℚ)
    (hlook : dictLookup st.pending_rules w = some e) :
    (now < e.expires_at → get_pending_rule st w now = (some e, st)) ∧
    (e.expires_at ≤ now →
      (get_pending_rule st w now).1 = none ∧
      dictLookup (get_pending_rule st w now).2.pending_rules w = none) := by
  constructor
  · intro hlt
    simp [get_pending_rule, hlook, hlt]
  · intro hge
    have hnot : ¬(now < e.expires_at) := not_lt.mpr hge
    simp [get_pending_rule, hlook, hnot, dictLookup_erase_self]

/-- C2 witness: entry expiring at 5 is readable at 3, gone at 6. -/
theorem claim_pending_lazy_expiry_witness :
    get_pending_rule stW "1" (mkRat 3 1) = (some entryW, stW) ∧
    ((get_pending_rule stW "1" (mkRat 6 1)).1 = none ∧
      dictLookup (get_pending_rule stW "1" (mkRat 6 1)).2.pending_rules "1" = none) :=
  ⟨(claim_pending_lazy_expiry stW "1" entryW (mkRat 3 1) (by decide)).1 (by decide),
   (claim_pending_lazy_expiry stW "1" entryW (mkRat 6 1) (by decide)).2 (by decide)⟩

/-! ## Claim C3: overwrite-on-store, one live entry per workspace -/

/-- C3: storing a second pending match for the same workspace overwrites the
first (only the second is retrievable) and the store holds exactly one entry
for that workspace. -/
theorem claim_pending_overwrite (st : StateManager) (w : String)
    (r1 : Rule) (p1 : Option Int) (c1 : AppContext) (t1 d1 : ℚ)
    (r2 : Rule) (p2 : Option Int) (c2 : AppContext) (t2 d2 : ℚ) (now : ℚ)
    (hlive : now < t2 + d2) :
    get_pending_rule
        (store_pending_rule (store_pending_rule st w r1 p1 c1 t1 d1) w r2 p2 c2 t2 d2)
        w now
      = (some (PendingEntry.mk r2 p2 c2 (t2 + d2)),
         store_pending_rule (store_pending_rule st w r1 p1 c1 t1 d1) w r2 p2 c2 t2 d2) ∧
    countKey
        (store_pending_rule (store_pending_rule st w r1 p1 c1 t1 d1)
          w r2 p2 c2 t2 d2).pending_rules w = 1 := by
  constructor
  · simp [get_pending_rule, store_pending_rule, dictLookup_insert_self, hlive]
  · simp [store_pending_rule, countKey_insert_self]

/-- C3 witness at concrete entries and times. -/
theorem claim_pending_overwrite_witness :
    get_pending_rule
        (store_pending_rule (store_pending_rule stW "1" ruleA (some 1) ctxW 0 1)
          "1" ruleB (some 2) ctxW 2 3)
        "1" 4
      = (some (PendingEntry.mk ruleB (some 2) ctxW ((2 : ℚ) + 3)),
         store_pending_rule (store_pending_rule stW "1" ruleA (some 1) ctxW 0 1)
           "1" ruleB (some 2) ctxW 2 3) ∧
    countKey
        (store_pending_rule (store_pending_rule stW "1" ruleA (some 1) ctxW 0 1)
          "1" ruleB (some 2) ctxW 2 3).pending_rules "1" = 1 :=
  claim_pending_overwrite stW "1" ruleA (some 1) ctxW 0 1 ruleB (some 2) ctxW 2 3 4
    (by norm_num)

/-! ## Claim C4: resolving a child never writes the pending entry -/

/-- C4: with a live pending match, `check_child_against_pending_rules`
leaves the pending store untouched in both the match and no-match cases,
returns the rule exactly when the child matches, and on a match with truthy
ids records the relationship. -/
theorem claim_resolve_preserves_pending (st : StateManager) (child : Container)
    (w : String) (now : ℚ) (e : PendingEntry)
    (hlook : dictLookup st.pending_rules w = some e)
    (hlive : now < e.expires_at) :
    (check_child_against_pending_rules st child w now).2.pending_rules =
      st.pending_rules ∧
    (check_child_against_pending_rules st child w now).1 =
      (if match_child child e.rule then some e.rule else none) ∧
    (∀ cid pid : Int, child.id = some cid → e.parent_id = some pid →
      cid ≠ 0 → pid ≠ 0 → match_child child e.rule = true →
      dictLookup
          (check_child_against_pending_rules st child w now).2.relationships cid =
        some (Relationship.mk pid e.rule.name now e.context)) := by
  have hget : get_pending_rule st w now = (some e, st) := by
    simp [get_pending_rule, hlook, hlive]
  refine ⟨?_, ?_, ?_⟩
  · by_cases hm : match_child child e.rule = true
    · simp only [check_child_against_pending_rules, hget, hm, if_true]
      rcases child.id with _ | cid <;> rcases e.parent_id with _ | pid <;>
        simp [store_relationship] <;> split <;> simp [store_relationship]
    · simp [check_child_against_pending_rules, hget, hm]
  · by_cases hm : match_child child e.rule = true <;>
      simp [check_child_against_pending_rules, hget, hm]
  · intro cid pid hcid hpid hc0 hp0 hm
    simp only [check_child_against_pending_rules, hget, hm, if_true, hcid, hpid]
    rw [if_pos ⟨hc0, hp0⟩]
    simp [store_relationship, dictLookup_insert_self]

/-- C4 witness: a matching child resolves the rule, the pending entry stays
in place and the relationship is recorded. -/
theorem claim_resolve_preserves_pending_witness :
    (check_child_against_pending_rules stW childW "1" (mkRat 3 1)).2.pending_rules =
      stW.pending_rules ∧
    (check_child_against_pending_rules stW childW "1" (mkRat 3 1)).1 =
      (if match_child childW entryW.rule then some entryW.rule else none) ∧
    dictLookup
        (check_child_against_pending_rules stW childW "1" (mkRat 3 1)).2.relationships
        9 =
      some (Relationship.mk 7 entryW.rule.name (mkRat 3 1) entryW.context) := by
  have h := claim_resolve_preserves_pending stW childW "1" (mkRat 3 1) entryW
    (by decide) (by decide)
  exact ⟨h.1, h.2.1,
    h.2.2 9 7 rfl rfl (by decide) (by decide) (by decide)⟩

/-! ## Claim C5: OR semantics of the context matcher -/

theorem optMemStr_iff (o : Option String) (l : List String) :
    optMemStr o l = true ↔ ∃ s, o = some s ∧ s ∈ l := by
  cases o with
  | none => simp [optMemStr]
  | some s => simp [optMemStr, List.contains, List.elem_iff]

theorem strLower_data_ne_nil (t : String) (ht : t ≠ "") :
    (strLower t).data ≠ [] := by
  intro hd
  apply ht
  apply String.ext
  simpa [strLower, List.map_eq_nil_iff] using hd

theorem globMatches_nil_pattern (t : List Char) :
    globMatches [] t = t.isEmpty := by
  simp [globMatches, compileGlob, tokMatch]

theorem match_title_iff (t0 : Option String) (tp : List String) :
    match_title_pattern t0 tp = true ↔
      ∃ t, t0 = some t ∧ t ≠ "" ∧ ∃ p ∈ tp,
        globMatches (strLower p).data (strLower t).data = true := by
  cases t0 with
  | none => simp [match_title_pattern]
  | some t =>
    simp only [match_title_pattern, Option.some.injEq]
    by_cases ht : t = ""
    · simp [ht]
    · by_cases htp : tp = []
      · simp [ht, htp]
      · rw [if_neg (by simp [ht, htp])]
        simp only [List.any_eq_true]
        constructor
        · rintro ⟨p, hp, hpg⟩
          by_cases hpe : p = ""
          · rw [if_pos hpe] at hpg; cases hpg
          · rw [if_neg hpe] at hpg
            exact ⟨t, rfl, ht, p, hp, hpg⟩
        · rintro ⟨t1, ht1, hne, p, hp, hpg⟩
          cases ht1
          refine ⟨p, hp, ?_⟩
          by_cases hpe : p = ""
          · exfalso
            apply strLower_data_ne_nil t hne
            subst hpe
            have h0 : (strLower "").data = [] := rfl
            rw [h0, globMatches_nil_pattern] at hpg
            exact List.isEmpty_iff.mp hpg
          · rw [if_neg hpe]
            exact hpg

/-- C5 (amended): the matcher is an OR over the provided criteria, where the
title criterion requires a present *and non-empty* title whose lowered form
glob-matches some pattern; no criteria, an absent or empty title, or an
empty pattern list never match. -/
theorem claim_context_matcher_or_semantics (c : Container)
    (al cl tp : List String) :
    (matches_app_context c al cl tp = true ↔
      (al ≠ [] ∧ ∃ a, (detect_app_context c).app_id = some a ∧ a ∈ al) ∨
      (cl ≠ [] ∧ ∃ w, (detect_app_context c).window_class = some w ∧ w ∈ cl) ∨
      (tp ≠ [] ∧ ∃ t, (detect_app_context c).title = some t ∧ t ≠ "" ∧
        ∃ p ∈ tp, globMatches (strLower p).data (strLower t).data = true)) ∧
    matches_app_context c [] [] [] = false ∧
    (∀ pats, match_title_pattern none pats = false) ∧
    (∀ t0, match_title_pattern t0 [] = false) := by
  refine ⟨?_, ?_, ?_, ?_⟩
  · simp only [matches_app_context, Bool.or_eq_true, Bool.and_eq_true,
      decide_eq_true_eq, optMemStr_iff, match_title_iff]
    exact or_assoc
  · simp [matches_app_context]
  · intro pats; rfl
  · intro t0
    cases t0 with
    | none => rfl
    | some t => simp [match_title_pattern]

/-- C5 counterexample: a present-but-empty title.  The pattern list `["*"]`
is non-empty and `""` glob-matches `"*"`, so the claim as stated demands a
match, but the matcher returns false (Python `not title` is true for `""`). -/
theorem claim_context_matcher_cex :
    matches_app_context (Container.mk none WinClassVal.missing (some "") none none)
        [] [] ["*"] = false ∧
    (["*"] : List String) ≠ [] ∧
    (detect_app_context
        (Container.mk none WinClassVal.missing (some "") none none)).title =
      some "" ∧
    (∃ p ∈ (["*"] : List String),
      globMatches (strLower p).data (strLower "").data = true) := by
  refine ⟨by decide, by decide, by decide, ⟨"*", by decide, ?_⟩⟩
  simp [globMatches, compileGlob, tokMatch, strLower]

/-! ## Claim C6: independent per-action execution, handled on partial success -/

/-- Actions of the child phase: everything except `set_mode` (skipped there). -/
def nonModeActions (acts : List ActionD) : List ActionD :=
  acts.filter (fun a => !(actionType a == "set_mode"))

theorem length_filter_partition {α : Type} (p : α → Bool) (l : List α) :
    (l.filter p).length + (l.filter (fun a => !(p a))).length = l.length := by
  induction l with
  | nil => rfl
  | cons a rest ih =>
    by_cases hp : p a = true <;> simp [List.filter_cons, hp] <;> omega

theorem execChild_fold (env : Env) (ras : List ActionD) (acts : List ActionD) :
    ∀ acc : ChildAcc,
      acts.foldl (execChildStep env ras) acc =
        ChildAcc.mk
          (acc.executed ++ ((nonModeActions acts).filter
            (fun a => (runChildAction env ras a).1)).map actionType)
          (acc.failed ++ ((nonModeActions acts).filter
            (fun a => !(runChildAction env ras a).1)).map actionType)
          (acc.trace ++ ((nonModeActions acts).map
            (fun a => (runChildAction env ras a).2)).join) := by
  induction acts with
  | nil =>
    intro acc
    simp [nonModeActions]
  | cons a rest ih =>
    intro acc
    rw [List.foldl_cons, ih]
    by_cases ha : actionType a = "set_mode"
    · simp [execChildStep, ha, nonModeActions, List.filter_cons]
    · by_cases hr : (runChildAction env ras a).1 = true <;>
        simp [execChildStep, ha, hr, nonModeActions, List.filter_cons,
          List.append_assoc]

/-- C6: the child phase attempts every non-`set_mode` action independently:
the executed list is exactly the (in-order) types of the actions whose own
execution succeeds, the failed list exactly those whose execution fails or
raises, every action lands in exactly one of the two, and the report is
handled iff the executed list is non-empty. -/
theorem claim_actions_independent (env : Env) (r : Rule) :
    (execChildActions env r).1.actions_executed =
      ((nonModeActions r.actions).filter
        (fun a => (runChildAction env r.actions a).1)).map actionType ∧
    (execChildActions env r).1.actions_failed =
      ((nonModeActions r.actions).filter
        (fun a => !(runChildAction env r.actions a).1)).map actionType ∧
    (execChildActions env r).1.actions_executed.length +
        (execChildActions env r).1.actions_failed.length =
      (nonModeActions r.actions).length ∧
    ((execChildActions env r).1.handled = true ↔
      (execChildActions env r).1.actions_executed ≠ []) := by
  have hfold := execChild_fold env r.actions r.actions (ChildAcc.mk [] [] [])
  unfold execChildActions
  rw [hfold]
  refine ⟨by simp, by simp, ?_, ?_⟩
  · simp only [List.nil_append, List.length_map]
    exact length_filter_partition _ _
  · simp [List.length_pos]

/-! ## Claim C7: exact command strings of the editor-terminal scenario -/

/-- C7: for a rule with actions `place: below` then `size_ratio: 0.333`, the
child phase sends exactly `set_mode v after` then `set_size v 0.333`, for
any connection; and `place` reduces to `set_mode` via below↦(v,after),
right↦(h,after), above↦(v,before), left↦(h,before). -/
theorem claim_child_phase_command_strings (env : Env) (nm : String)
    (pm : ParentMatcher) (cm : ChildMatcher) :
    (execChildActions env (Rule.mk nm pm cm
        [ActionD.place "below", ActionD.size_ratio (mkRat 333 1000)])).2 =
      ["set_mode v after", "set_size v 0.333"] ∧
    directionLookup "below" = some ("v", "after") ∧
    directionLookup "right" = some ("h", "after") ∧
    directionLookup "above" = some ("v", "before") ∧
    directionLookup "left" = some ("h", "before") :=
  ⟨rfl, rfl, rfl, rfl, rfl⟩

/-! ## Claim C8: axis used by size_ratio -/

theorem mapDim_eq_specAxis (d : String) :
    mapDirectionToDimension d = specAxisOfDirection d := by
  unfold mapDirectionToDimension specAxisOfDirection
  split_ifs <;> simp_all

theorem getPlacement_eq_find (acts : List ActionD) :
    getPlacementDirectionFromRule acts =
      (match acts.find? (fun a => actionType a == "place") with
       | some a => directionOf a
       | none => "below") := by
  induction acts with
  | nil => rfl
  | cons a rest ih =>
    simp only [getPlacementDirectionFromRule, List.find?]
    by_cases ha : actionType a = "place"
    · simp [ha]
    · have hb : (actionType a == "place") = false := by simp [ha]
      simp [ha, hb, ih]

/-- C8 counterexample: with two Place actions (`below` then `right`) and a
`size_ratio`, the code resizes on `v` (the axis of the *first* place) while
the most recent Place action is `right`, whose axis is `h`. -/
theorem claim_size_axis_cex :
    (execChildActions envT (Rule.mk "ide" (ParentMatcher.mk [] [] [])
        (ChildMatcher.mk [])
        [ActionD.place "below", ActionD.place "right",
         ActionD.size_ratio (mkRat 1 2)])).2 =
      ["set_mode v after", "set_mode h after", "set_size v 0.5"] ∧
    specMostRecentPlaceDirection
        [ActionD.place "below", ActionD.place "right",
         ActionD.size_ratio (mkRat 1 2)] = some "right" ∧
    specAxisOfDirection "right" = "h" ∧
    ("set_size v 0.5" : String) ≠ "set_size h 0.5" := by
  refine ⟨by decide, by decide, by decide, by decide⟩

/-- C8 (amended): the resize axis is the one implied by the rule's *first*
Place action (vertical for below/above, horizontal for left/right, vertical
by default or for unrecognized directions), and an in-bounds `size_ratio`
action sends exactly one `set_size` command on that axis. -/
theorem claim_size_axis_first_place (acts : List ActionD) (env : Env) (q : ℚ) :
    mapDirectionToDimension (getPlacementDirectionFromRule acts) =
      specFirstPlaceAxis acts ∧
    (mkRat 1 10 ≤ q → q ≤ mkRat 9 10 →
      runChildAction env acts (ActionD.size_ratio q) =
        (cmdSuccess env ("set_size " ++ specFirstPlaceAxis acts ++ " " ++ formatRatio q),
         ["set_size " ++ specFirstPlaceAxis acts ++ " " ++ formatRatio q])) := by
  have hax : mapDirectionToDimension (getPlacementDirectionFromRule acts) =
      specFirstPlaceAxis acts := by
    rw [getPlacement_eq_find]
    unfold specFirstPlaceAxis
    cases acts.find? (fun a => actionType a == "place") with
    | none => rfl
    | some a => exact mapDim_eq_specAxis (directionOf a)
  have hd : specFirstPlaceAxis acts = "h" ∨ specFirstPlaceAxis acts = "v" := by
    rw [← hax]
    unfold mapDirectionToDimension
    split_ifs <;> simp
  refine ⟨hax, ?_⟩
  intro h1 h2
  have hrun : runChildAction env acts (ActionD.size_ratio q) =
      set_size env (specFirstPlaceAxis acts) q := by
    simp [runChildAction, actionType, valueOf, hax]
  rw [hrun]
  rcases hd with hcase | hcase <;> simp [set_size, hcase, h1, h2]

/-- C8 witness: a first (and only) Place `left` yields a horizontal resize. -/
theorem claim_size_axis_first_place_witness :
    mapDirectionToDimension (getPlacementDirectionFromRule [ActionD.place "left"]) =
      specFirstPlaceAxis [ActionD.place "left"] ∧
    runChildAction envT [ActionD.place "left"] (ActionD.size_ratio (mkRat 1 2)) =
      (cmdSuccess envT
        ("set_size " ++ specFirstPlaceAxis [ActionD.place "left"] ++ " " ++
          formatRatio (mkRat 1 2)),
       ["set_size " ++ specFirstPlaceAxis [ActionD.place "left"] ++ " " ++
          formatRatio (mkRat 1 2)]) :=
  ⟨(claim_size_axis_first_place [ActionD.place "left"] envT (mkRat 1 2)).1,
   (claim_size_axis_first_place [ActionD.place "left"] envT (mkRat 1 2)).2
     (by decide) (by decide)⟩

/-! ## Claim C9: report for a Place plus an Unknown action -/

/-- C9 counterexample: with `place: below` and an unknown `frobnicate`
action, the failed list holds the unknown action's own type string
(`"frobnicate"`), not the literal `"unknown action type"`. -/
theorem claim_unknown_action_cex :
    (execChildActions envT (Rule.mk "r9" (ParentMatcher.mk [] [] [])
        (ChildMatcher.mk [])
        [ActionD.place "below", ActionD.generic "frobnicate" "1"])).1 =
      ExecReport.mk true "r9" ["place"] ["frobnicate"] ∧
    ("frobnicate" : String) ≠ "unknown action type" := by
  refine ⟨by decide, by decide⟩

/-- C9 (amended): for a rule with one valid Place action and one Unknown
action, the child phase yields handled = true, executed = `["place"]` and
failed = `[k]` where `k` is the unknown action's own key (the spec's literal
`"unknown action type"` never appears), provided the placement command is
accepted. -/
theorem claim_unknown_action_report (env : Env) (nm : String)
    (pm : ParentMatcher) (cm : ChildMatcher) (k v : String)
    (hcmd : cmdSuccess env "set_mode v after" = true)
    (hk : ¬(k = "set_mode" ∨ k = "place" ∨ k = "size_ratio" ∨
        k = "inherit_cwd" ∨ k = "preserve_column")) :
    (execChildActions env (Rule.mk nm pm cm
        [ActionD.place "below", ActionD.generic k v])).1 =
      ExecReport.mk true nm ["place"] [k] := by
  simp only [not_or] at hk
  obtain ⟨hk1, hk2, hk3, hk4, hk5⟩ := hk
  have hplace : runChildAction env
      [ActionD.place "below", ActionD.generic k v] (ActionD.place "below") =
      (true, ["set_mode v after"]) := by
    have hpw : place_window env "below" =
        (cmdSuccess env "set_mode v after", ["set_mode v after"]) := rfl
    simp [runChildAction, actionType, directionOf, hpw, hcmd]
  have hgen : runChildAction env
      [ActionD.place "below", ActionD.generic k v] (ActionD.generic k v) =
      (false, []) := by
    simp [runChildAction, actionType, hk2, hk3, hk4, hk5]
  simp [execChildActions, execChildStep, actionType, hplace, hgen, hk1]

/-- C9 witness for the amended claim at a concrete connection and key. -/
theorem claim_unknown_action_report_witness :
    cmdSuccess envT "set_mode v after" = true ∧
    (execChildActions envT (Rule.mk "r9x" (ParentMatcher.mk [] [] [])
        (ChildMatcher.mk [])
        [ActionD.place "below", ActionD.generic "transmogrify" "1"])).1 =
      ExecReport.mk true "r9x" ["place"] ["transmogrify"] :=
  ⟨by decide,
   claim_unknown_action_report envT "r9x" (ParentMatcher.mk [] [] [])
     (ChildMatcher.mk []) "transmogrify" "1" (by decide) (by decide)⟩

/-! ## Claim C10: argument validation before any command -/

/-- C10 counterexample: `set_mode` called with the empty-string modifier —
a modifier outside the valid set — still sends a command (`"set_mode v"`),
because Python `if modifier` treats `""` as absent. -/
theorem claim_validation_cex :
    (set_mode envT "v" (some "")).1 = true ∧
    (set_mode envT "v" (some "")).2 = ["set_mode v"] ∧
    ¬(("" : String) = "after" ∨ ("" : String) = "before" ∨
      ("" : String) = "end" ∨ ("" : String) = "beg") := by
  refine ⟨by decide, by decide, by decide⟩

/-- C10 (amended): an invalid mode, or a provided *non-empty* modifier
outside the valid set, makes `set_mode` return false with no command sent;
an invalid dimension or an out-of-bounds ratio makes `set_size` return
false with no command sent.  (An empty-string modifier is treated as
absent.) -/
theorem claim_validation_before_commands (env : Env) (mode : String)
    (modifier : Option String) (dim : String) (ratio : ℚ) :
    (¬(mode = "h" ∨ mode = "v") → set_mode env mode modifier = (false, [])) ∧
    (∀ m, modifier = some m → m ≠ "" →
      ¬(m = "after" ∨ m = "before" ∨ m = "end" ∨ m = "beg") →
      set_mode env mode modifier = (false, [])) ∧
    (¬(dim = "h" ∨ dim = "v") → set_size env dim ratio = (false, [])) ∧
    (¬(mkRat 1 10 ≤ ratio ∧ ratio ≤ mkRat 9 10) →
      set_size env dim ratio = (false, [])) := by
  refine ⟨?_, ?_, ?_, ?_⟩
  · intro h
    simp [set_mode, h]
  · intro m hm hne hbad
    subst hm
    by_cases hmode : mode = "h" ∨ mode = "v"
    · simp [set_mode, hmode, optStrTruthy, hne, hbad]
    · simp [set_mode, hmode]
  · intro h
    simp [set_size, h]
  · intro h
    by_cases hdim : dim = "h" ∨ dim = "v"
    · simp [set_size, hdim, h]
    · simp [set_size, hdim]

/-- C10 witness at concrete invalid arguments. -/
theorem claim_validation_before_commands_witness :
    set_mode envT "x" (some "q") = (false, []) ∧
    set_mode envT "h" (some "q") = (false, []) ∧
    set_size envT "z" (mkRat 5 1) = (false, []) ∧
    set_size envT "h" (mkRat 5 1) = (false, []) :=
  ⟨(claim_validation_before_commands envT "x" (some "q") "z" (mkRat 5 1)).1
      (by decide),
   (claim_validation_before_commands envT "h" (some "q") "z" (mkRat 5 1)).2.1
      "q" rfl (by decide) (by decide),
   (claim_validation_before_commands envT "h" (some "q") "z" (mkRat 5 1)).2.2.1
      (by decide),
   (claim_validation_before_commands envT "h" (some "q") "h" (mkRat 5 1)).2.2.2
      (by decide)⟩
